import Mathlib

/-!
Verification of the reconciliation core of `cme/protocols/smb/database.py`
(the SMB persistence layer: hosts, credentials, groups, relationship links).

The SQLite tables are embedded as lists of typed rows; each write operation of
the source becomes a pure function from a `DB` state (plus its arguments) to a
new `DB` state.  SQL `NULL` is `Option.none`; SQL three-valued comparisons
(`lower(col) == lower(val)`, `col == val`) are boolean functions that are
`false` whenever either side is `NULL`, exactly as a SQL `WHERE` filter treats
them.  Python truthiness tests (`if group_id:`, `if filter_term:`,
`if not user[3]:`) are embedded by explicit truthiness/blankness predicates.
Auto-assigned SQLite row ids are modelled as max-of-existing-ids plus one.
-/

/-! ## Character and string helpers (SQL `lower`/`upper`, `LIKE`, numeric affinity) -/

/-- ASCII lower-casing of one character, as SQLite `lower()` does. -/
def lowerChar (c : Char) : Char :=
  if 65 ≤ c.toNat ∧ c.toNat ≤ 90 then Char.ofNat (c.toNat + 32) else c

/-- ASCII upper-casing of one character, as Python `str.upper` does on ASCII. -/
def upperChar (c : Char) : Char :=
  if 97 ≤ c.toNat ∧ c.toNat ≤ 122 then Char.ofNat (c.toNat - 32) else c

/-- Lower-case a string (ASCII). -/
def sLower (s : String) : String := ⟨s.data.map lowerChar⟩

/-- Upper-case a string (ASCII). -/
def sUpper (s : String) : String := ⟨s.data.map upperChar⟩

/-- Embeds `domain.split('.')[0].upper()`: the part of the domain before the
first `'.'`, upper-cased. -/
def normalizeDomain (d : String) : String := sUpper ⟨d.data.takeWhile (· ≠ '.')⟩

/-- Whether `pat` is a prefix of `s` (character lists). -/
def hasPrefixCh : List Char → List Char → Bool
  | _, [] => true
  | [], _ :: _ => false
  | c :: s, p :: ps => c == p && hasPrefixCh s ps

/-- Whether `pat` occurs as a contiguous substring of `s`; embeds `LIKE '%pat%'` with a
literal pattern (and Python `pat in s`). -/
def containsCh : List Char → List Char → Bool
  | [], pat => pat.isEmpty
  | c :: s, pat => hasPrefixCh (c :: s) pat || containsCh s pat

/-- Whether `pat` is a suffix of `s`; embeds `LIKE '%pat'` with a literal pattern. -/
def suffixCh (s pat : List Char) : Bool := hasPrefixCh s.reverse pat.reverse

/-- SQLite numeric affinity of a TEXT value compared against an INTEGER column:
a well-formed decimal numeral converts to its value, anything else never equals
an integer. -/
def parseNat : List Char → Option Nat
  | [] => none
  | cs =>
    if cs.all (fun c => 48 ≤ c.toNat ∧ c.toNat ≤ 57) then
      some (cs.foldl (fun a c => a * 10 + (c.toNat - 48)) 0)
    else none

/-! ## SQL comparison and Python truthiness -/

/-- Embeds `func.lower(a) == func.lower(b)` under SQL three-valued logic: a `NULL` on
either side makes the filter reject the row. -/
def sqlEqCI (a b : Option String) : Bool :=
  match a, b with
  | some x, some y => sLower x == sLower y
  | _, _ => false

/-- Embeds `a == b` on nullable TEXT columns under SQL three-valued logic. -/
def sqlEq (a b : Option String) : Bool :=
  match a, b with
  | some x, some y => x == y
  | _, _ => false

/-- Python truthiness of an optional integer (`if group_id:`): `None` and `0`
are falsy. -/
def truthyId : Option Nat → Bool
  | none => false
  | some n => n != 0

/-- Python truthiness of an optional string (`if filter_term:`): `None` and
`""` are falsy. -/
def truthyStr : Option String → Bool
  | none => false
  | some s => !s.isEmpty

/-- Python falsiness of a nullable TEXT column value (`if not user[3]:`):
`NULL` and the empty string are both falsy. -/
def blankText : Option String → Bool
  | none => true
  | some s => s.isEmpty

/-- Python falsiness of a nullable INTEGER column value: `NULL` and `0`. -/
def blankId : Option Nat → Bool
  | none => true
  | some n => n == 0

/-- Merge rule used everywhere: a non-null incoming value overwrites, a null
incoming value keeps the stored one. -/
def updOpt {α : Type} (newv old : Option α) : Option α :=
  match newv with
  | some v => some v
  | none => old

/-! ## Data model: the tables of the SMB database -/

/-- One row of the `computers` table. -/
structure ComputerRow where
  id : Nat
  ip : String
  hostname : Option String
  domain : Option String
  os : Option String
  dc : Option Bool
  smbv1 : Option Bool
  signing : Option Bool
  spooler : Option Bool
  zerologon : Option Bool
  petitpotam : Option Bool
deriving Repr, DecidableEq

/-- One row of the `users` table (harvested credentials). -/
structure UserRow where
  id : Nat
  domain : Option String
  username : Option String
  password : Option String
  credtype : Option String
  pillaged_from_computerid : Option Nat
deriving Repr, DecidableEq

/-- One row of the `groups` table.  `last_query_time` stores an ISO timestamp
string. -/
structure GroupRow where
  id : Nat
  domain : Option String
  name : Option String
  member_count_ad : Option Nat
  last_query_time : Option String
deriving Repr, DecidableEq

/-- One row of the `admin_relations` table. -/
structure AdminRelationRow where
  id : Nat
  userid : Nat
  computerid : Nat
deriving Repr, DecidableEq

/-- One row of the `group_relations` table. -/
structure GroupRelationRow where
  id : Nat
  userid : Nat
  groupid : Nat
deriving Repr, DecidableEq

/-- One row of the `shares` table. -/
structure ShareRow where
  id : Nat
  computerid : Option String
  userid : Option Nat
  name : Option String
  remark : Option String
  read : Option Bool
  write : Option Bool
deriving Repr, DecidableEq

/-- The database state: the tables touched by the reconciliation core.  The
`loggedin_relations` table is reflected by the source but never written or read
by the operations under verification, so it is omitted. -/
structure DB where
  computers : List ComputerRow
  users : List UserRow
  groups : List GroupRow
  admin_relations : List AdminRelationRow
  group_relations : List GroupRelationRow
  shares : List ShareRow
deriving Repr, DecidableEq

/-- The empty database (all tables empty). -/
def emptyDB : DB :=
  { computers := [], users := [], groups := [], admin_relations := [],
    group_relations := [], shares := [] }

/-- A fresh SQLite row id: one more than the largest id in use. -/
def freshId (ids : List Nat) : Nat := ids.foldr max 0 + 1

/-! ## Existence guards (`is_group_valid`, `is_computer_valid`) -/

/-- Embeds `is_group_valid`: some `groups` row has this id. -/
def is_group_valid (db : DB) (group_id : Nat) : Bool :=
  db.groups.any (fun g => g.id == group_id)

/-- Embeds `is_computer_valid` applied to an integer host id. -/
def is_computer_valid (db : DB) (host_id : Nat) : Bool :=
  db.computers.any (fun c => c.id == host_id)

/-! ## `add_computer` (spec name: `report_host`) -/

/-- The per-row merge of `add_computer`'s update branch: each argument that is
non-null overwrites the stored column, each null argument leaves it untouched.
`ip` and the normalized `domain` are never null, so they always overwrite. -/
def mergeComputerRow (c : ComputerRow) (ip : String) (hostname : Option String)
    (dom : String) (os : Option String) (smbv1 signing spooler zerologon
    petitpotam dc : Option Bool) : ComputerRow :=
  { c with
    ip := ip
    hostname := updOpt hostname c.hostname
    domain := some dom
    os := updOpt os c.os
    smbv1 := updOpt smbv1 c.smbv1
    signing := updOpt signing c.signing
    spooler := updOpt spooler c.spooler
    zerologon := updOpt zerologon c.zerologon
    petitpotam := updOpt petitpotam c.petitpotam
    dc := updOpt dc c.dc }

/-- Embeds `add_computer`: normalize the domain, select the rows with this
exact `ip`; if none, insert one new row with the supplied fields; otherwise
merge the non-null arguments into every matched row and write the merged rows
back.  The write-back is `sqlite_upsert` on a table whose primary key is
declared `ON CONFLICT REPLACE` and the merged dictionaries carry the existing
ids, so each matched row is replaced in place (same id) and unmatched rows are
untouched. -/
def add_computer (db : DB) (ip : String) (hostname : Option String)
    (domain : String) (os : Option String) (smbv1 : Option Bool)
    (signing : Option Bool) (spooler : Option Bool) (zerologon : Option Bool)
    (petitpotam : Option Bool) (dc : Option Bool) : DB :=
  let dom := normalizeDomain domain
  let results := db.computers.filter (fun c => c.ip == ip)
  if results.isEmpty then
    let newRow : ComputerRow :=
      { id := freshId (db.computers.map (·.id)), ip := ip, hostname := hostname,
        domain := some dom, os := os, dc := dc, smbv1 := smbv1,
        signing := signing, spooler := spooler, zerologon := zerologon,
        petitpotam := petitpotam }
    { db with computers := db.computers ++ [newRow] }
  else
    { db with computers := db.computers.map (fun c =>
        if c.ip == ip then
          mergeComputerRow c ip hostname dom os smbv1 signing spooler
            zerologon petitpotam dc
        else c) }

/-! ## `add_credential` (spec name: `report_credential`) -/

/-- The key match of `add_credential`: `lower(domain)`, `lower(username)` and
`lower(credtype)` all equal the (lowered) supplied values. -/
def credMatch (u : UserRow) (dom : String) (username credtype : Option String) :
    Bool :=
  sqlEqCI u.domain (some dom) && sqlEqCI u.username username &&
    sqlEqCI u.credtype credtype

/-- A bare username placeholder: `not user[3] and not user[4] and not user[5]`
— password, credtype and pillaged-from all Python-falsy (`NULL`, `""`, `0`). -/
def isPlaceholderUser (u : UserRow) : Bool :=
  blankText u.password && blankText u.credtype &&
    blankId u.pillaged_from_computerid

/-- The column assignments of `credential_data` applied to one `users` row:
each non-null argument overwrites its column (the normalized domain is never
null).  The source's dictionary additionally receives `groupid` /
`pillaged_from` keys when those arguments are non-null, but the `users` table
has no columns of those names (its column is `pillaged_from_computerid`), so
only the four real columns can take effect. -/
def updateCredRow (u : UserRow) (credtype : Option String) (dom : String)
    (username password : Option String) : UserRow :=
  { u with
    credtype := updOpt credtype u.credtype
    domain := some dom
    username := updOpt username u.username
    password := updOpt password u.password }

/-- Embeds `get_group_relations` in the both-arguments form used by
`add_credential`.  Note the source filters on the relation row's own `id`
column (`GroupRelationsTable.c.id == user_id`), not on `userid`. -/
def get_group_relations (db : DB) (user_id group_id : Nat) :
    List GroupRelationRow :=
  db.group_relations.filter (fun gr => gr.id == user_id && gr.groupid == group_id)

/-- One iteration of `add_credential`'s update loop, acting on the
(state, returned-id) accumulator for one pre-selected matched row `u`.  When
`u` is a bare placeholder the source executes
`update(self.UsersTable).values(credential_data)` — an UPDATE carrying **no**
WHERE clause (the commented-out predecessor directly above it in the source
scoped it with `.where(UsersTable.c.id == user[0])`), so every row of the
`users` table receives the assignments.  The returned id, which the source
reads off the UPDATE's result, is modelled as the matched row's id.  If a
truthy `group_id` is supplied and the (id-keyed) relation lookup is empty, the
source then runs `update(self.GroupRelationsTable).values(gr_data)` — again
with no WHERE clause, rewriting every `group_relations` row. -/
def credUpdateStep (credtype : Option String) (dom : String)
    (username password : Option String) (group_id : Option Nat)
    (acc : DB × Option Nat) (u : UserRow) : DB × Option Nat :=
  if isPlaceholderUser u then
    let db' := { acc.1 with
      users := acc.1.users.map
        (fun v => updateCredRow v credtype dom username password) }
    let rid := u.id
    let overwriteRel := fun (gr : GroupRelationRow) =>
      { gr with userid := rid, groupid := group_id.getD 0 }
    let db'' :=
      if truthyId group_id &&
          (get_group_relations db' rid (group_id.getD 0)).isEmpty then
        { db' with group_relations := db'.group_relations.map overwriteRel }
      else db'
    (db'', some rid)
  else acc

/-- Embeds `add_credential`: normalize the domain; reject as a no-op when a
truthy `group_id` fails `is_group_valid` or a truthy `pillaged_from` fails
`is_computer_valid`; select the rows matching (domain, username, credtype)
case-insensitively; if none, insert a new row (plus a `group_relations` row
when `group_id` is truthy) and return the new id; otherwise run the update
loop over the matched rows.  Returns the final state and the returned
credential id (`None` when no write occurred).  The source reads the inserted
row's id off the INSERT's result; it is modelled as the fresh id. -/
def add_credential (db : DB) (credtype : Option String) (domain : String)
    (username password : Option String) (group_id pillaged_from : Option Nat) :
    DB × Option Nat :=
  let dom := normalizeDomain domain
  if truthyId group_id && !(is_group_valid db (group_id.getD 0)) then (db, none)
  else if truthyId pillaged_from &&
      !(is_computer_valid db (pillaged_from.getD 0)) then (db, none)
  else
    let results := db.users.filter (fun u => credMatch u dom username credtype)
    if results.isEmpty then
      let uid := freshId (db.users.map (·.id))
      let newRow : UserRow :=
        { id := uid, domain := some dom, username := username,
          password := password, credtype := credtype,
          pillaged_from_computerid := pillaged_from }
      let db1 := { db with users := db.users ++ [newRow] }
      let db2 :=
        if truthyId group_id then
          { db1 with group_relations := db1.group_relations ++
              [{ id := freshId (db1.group_relations.map (·.id)), userid := uid,
                 groupid := group_id.getD 0 }] }
        else db1
      (db2, some uid)
    else
      results.foldl (credUpdateStep credtype dom username password group_id)
        (db, none)

/-! ## `add_group` (spec name: `report_group`) -/

/-- The key match of `add_group`: `lower(domain)` and `lower(name)` equal the
(lowered) supplied values. -/
def groupMatch (g : GroupRow) (dom : String) (name : Option String) : Bool :=
  sqlEqCI g.domain (some dom) && sqlEqCI g.name name

/-- The column assignments of `group_data` applied to one `groups` row: the
normalized domain always, the name when supplied, and — only when
`member_count_ad` is supplied — the member count together with a fresh
`last_query_time` stamp. -/
def updateGroupRow (g : GroupRow) (dom : String) (name : Option String)
    (member_count_ad : Option Nat) (now : String) : GroupRow :=
  { g with
    domain := some dom
    name := updOpt name g.name
    member_count_ad := updOpt member_count_ad g.member_count_ad
    last_query_time :=
      if member_count_ad.isSome then some now else g.last_query_time }

/-- One iteration of `add_group`'s update loop: apply `group_data` to every
row whose id equals the matched row's id (the source's UPDATE is scoped with
`.where(GroupsTable.c.id == group[0])`). -/
def updateGroupsById (gs : List GroupRow) (gid : Nat) (dom : String)
    (name : Option String) (mc : Option Nat) (now : String) : List GroupRow :=
  gs.map (fun g => if g.id == gid then updateGroupRow g dom name mc now else g)

/-- Embeds `add_group`: normalize the domain, select the rows matching
(domain, name) case-insensitively; if any exist, apply `group_data` to each of
them in turn, returning the id of the last row touched (`cid` starts at the
first match's id and is overwritten by each loop iteration); otherwise insert
one new row and return its id.  The wall-clock instant `datetime.now()` is
passed in as the explicit argument `now`. -/
def add_group (db : DB) (domain : String) (name : Option String)
    (member_count_ad : Option Nat) (now : String) : DB × Nat :=
  let dom := normalizeDomain domain
  let results := db.groups.filter (fun g => groupMatch g dom name)
  match results with
  | [] =>
    let gid := freshId (db.groups.map (·.id))
    let newRow : GroupRow :=
      { id := gid, domain := some dom, name := name,
        member_count_ad := member_count_ad,
        last_query_time := if member_count_ad.isSome then some now else none }
    ({ db with groups := db.groups ++ [newRow] }, gid)
  | m :: ms =>
    let final := (m :: ms).foldl
      (fun (acc : List GroupRow × Nat) g =>
        (updateGroupsById acc.1 g.id dom name member_count_ad now, g.id))
      (db.groups, m.id)
    ({ db with groups := final.1 }, final.2)

/-! ## `add_admin_user` (spec name: `link_admin`) -/

/-- Credential resolution of `add_admin_user`: by exact id when `user_id` is
truthy, otherwise by exact `credtype`, case-insensitive domain and username,
and exact `password`. -/
def adminMatchUsers (db : DB) (credtype : Option String) (dom : String)
    (username password : Option String) (user_id : Option Nat) : List UserRow :=
  if truthyId user_id then
    db.users.filter (fun u => u.id == user_id.getD 0)
  else
    db.users.filter (fun u =>
      sqlEq u.credtype credtype && sqlEqCI u.domain (some dom) &&
        sqlEqCI u.username username && sqlEq u.password password)

/-- Host resolution of `add_admin_user`: `ip LIKE lower('%host%')`.  SQLite's
`LIKE` is ASCII case-insensitive, so this is "lowered ip contains lowered
selector". -/
def adminMatchHosts (db : DB) (host : String) : List ComputerRow :=
  db.computers.filter (fun c => containsCh (sLower c.ip).data (sLower host).data)

/-- Is there already an `admin_relations` row for this (credential, host)
pair? -/
def linkExists (rels : List AdminRelationRow) (uid hid : Nat) : Bool :=
  rels.any (fun r => r.userid == uid && r.computerid == hid)

/-- The link loop of `add_admin_user`: for each (user, host) pair, insert a
new `admin_relations` row unless one with that (userid, computerid) already
exists. -/
def insertAdminLinks (rels : List AdminRelationRow)
    (pairs : List (UserRow × ComputerRow)) : List AdminRelationRow :=
  pairs.foldl
    (fun rels p =>
      if linkExists rels p.1.id p.2.id then rels
      else rels ++ [{ id := freshId (rels.map (·.id)), userid := p.1.id,
                      computerid := p.2.id }])
    rels

/-- Embeds `add_admin_user`: resolve the credentials and the hosts, then link
pairs drawn by `zip(users, hosts)` — element-wise, truncated to the shorter
list — inserting each pair's relation row only when not already present. -/
def add_admin_user (db : DB) (credtype : Option String) (domain : String)
    (username password : Option String) (host : String)
    (user_id : Option Nat) : DB :=
  let dom := normalizeDomain domain
  let users := adminMatchUsers db credtype dom username password user_id
  let hosts := adminMatchHosts db host
  { db with admin_relations := insertAdminLinks db.admin_relations (users.zip hosts) }

/-! ## `get_computers` (spec name: `get_hosts`) and `get_shares_by_access` -/

/-- Does the filter term denote this row id?  The source compares the INTEGER
`id` column against the term with `==`; under SQLite numeric affinity a term
that is a well-formed numeral equals the corresponding integer and any other
term equals no integer. -/
def termMatchesId (ft : Option String) (cid : Nat) : Bool :=
  match ft with
  | some s => parseNat s.data == some cid
  | none => false

/-- Embeds `is_computer_valid` as called by `get_computers`, where the
argument is the raw filter term rather than an integer id. -/
def is_computer_valid_term (db : DB) (ft : Option String) : Bool :=
  db.computers.any (fun c => termMatchesId ft c.id)

/-- The ip/hostname text filter of `get_computers`:
`lower(ip) LIKE lower('%term%')` — substring — or
`lower(hostname) LIKE lower('%term')` — the source's hostname pattern has no
trailing `%`, so it is a suffix match.  A `NULL` hostname fails the filter. -/
def computerTextFilter (c : ComputerRow) (t : String) : Bool :=
  containsCh (sLower c.ip).data (sLower t).data ||
    (match c.hostname with
     | some hn => suffixCh (sLower hn).data (sLower t).data
     | none => false)

/-- Embeds `get_computers`: (a) if the term denotes an existing row id, return
that row (the source takes `.first()` of the id query); (b) else if the term
is `'dc'`, return the rows with the `dc` flag set, further filtered by domain
when a truthy `domain` argument is given; (c) else if the term is truthy,
apply the ip-substring / hostname-suffix text filter; (d) else return every
row. -/
def get_computers (db : DB) (filter_term : Option String)
    (domain : Option String) : List ComputerRow :=
  if is_computer_valid_term db filter_term then
    (db.computers.filter (fun c => termMatchesId filter_term c.id)).take 1
  else if filter_term == some "dc" then
    if truthyStr domain then
      db.computers.filter (fun c =>
        c.dc == some true && sqlEqCI c.domain (some (domain.getD "")))
    else
      db.computers.filter (fun c => c.dc == some true)
  else if truthyStr filter_term then
    db.computers.filter (fun c => computerTextFilter c (filter_term.getD ""))
  else
    db.computers

/-- Embeds `get_shares_by_access`.  The source lower-cases `permissions` and
then builds `q.filter(...)` expressions for the share id, the read flag and
the write flag — but discards every one of those return values (`q.filter`
returns a new query and `q` is never reassigned), so the query it executes is
the bare unfiltered SELECT.  The discarded filters are kept here as unused
bindings. -/
def get_shares_by_access (db : DB) (permissions : String)
    (share_id : Option Nat) : List ShareRow :=
  let perms := sLower permissions
  let _discarded_id_filter :=
    if truthyId share_id then
      db.shares.filter (fun s => share_id == some s.id)
    else db.shares
  let _discarded_read_filter :=
    if containsCh perms.data ['r'] then
      db.shares.filter (fun s => s.read == some true)
    else db.shares
  let _discarded_write_filter :=
    if containsCh perms.data ['w'] then
      db.shares.filter (fun s => s.write == some true)
    else db.shares
  db.shares

/-! ## Concrete states used by the concrete theorems below -/

/-- A bare placeholder credential row: `bob@CORP`, empty password, empty
credtype, no pillage source (the shape `add_user` writes). -/
def bobPlaceholder : UserRow :=
  { id := 1, domain := some "CORP", username := some "bob", password := some "",
    credtype := some "", pillaged_from_computerid := none }

/-- An unrelated, fully populated credential row for a different key. -/
def aliceRow : UserRow :=
  { id := 2, domain := some "OTHER", username := some "alice",
    password := some "alicepw", credtype := some "plaintext",
    pillaged_from_computerid := none }

/-- State for the C1 scenario: one bare placeholder matching the reported key
plus one unrelated populated credential. -/
def c1db : DB := { emptyDB with users := [bobPlaceholder, aliceRow] }

/-- A populated credential row sharing the (domain, username, credtype) key of
`bobPlaceholder`. -/
def bobPopulated : UserRow :=
  { id := 2, domain := some "CORP", username := some "bob",
    password := some "oldpw", credtype := some "",
    pillaged_from_computerid := none }

/-- State for the C2 scenario: a bare placeholder and an already-populated row
under the same key. -/
def c2db : DB := { emptyDB with users := [bobPlaceholder, bobPopulated] }

/-- A minimal computer row with the given id and ip. -/
def plainComputer (i : Nat) (ip : String) : ComputerRow :=
  { id := i, ip := ip, hostname := none, domain := some "CORP", os := none,
    dc := none, smbv1 := none, signing := none, spooler := none,
    zerologon := none, petitpotam := none }

/-- State for the C3 counterexample: two Host rows already share the ip
`10.0.0.5`. -/
def c3db : DB :=
  { emptyDB with computers := [plainComputer 1 "10.0.0.5", plainComputer 2 "10.0.0.5"] }

/-- The row inserted by the C6 counterexample call. -/
def c6row : UserRow :=
  { id := 1, domain := some "D", username := some "u", password := some "p",
    credtype := some "plaintext", pillaged_from_computerid := none }

/-- State for the C7 counterexample: one credential and two hosts whose ips
both contain the selector `10.0.0`. -/
def c7db : DB := { emptyDB with
  users := [{ id := 1, domain := some "CORP", username := some "bob",
              password := some "pw", credtype := some "plaintext",
              pillaged_from_computerid := none }],
  computers := [plainComputer 1 "10.0.0.5", plainComputer 2 "10.0.0.6"] }

/-- State for the C9 counterexample: a host whose hostname contains `DC01`
without ending in it. -/
def c9db : DB := { emptyDB with computers :=
  [{ plainComputer 1 "10.0.0.5" with hostname := some "DC01srv", dc := some false }] }

/-- A fully populated computer row, target of the C4 witness: a later report
with `hostname = none` must preserve `DC01`. -/
def c4row : ComputerRow :=
  { plainComputer 1 "10.0.0.5" with
    hostname := some "DC01"
    os := some "Windows"
    dc := some true }

/-- State for the C4 witness. -/
def c4db : DB := { emptyDB with computers := [c4row] }

/-- The computer row inserted by the C5 witness call. -/
def c5row : ComputerRow :=
  { plainComputer 1 "1.2.3.4" with domain := some "CORP" }

/-- The row `add_computer` inserts when no row with the reported ip exists
(`dom` is the already-normalized domain). -/
def newComputerRow (db : DB) (ip : String) (hostname : Option String)
    (dom : String) (os : Option String)
    (smbv1 signing spooler zerologon petitpotam dc : Option Bool) : ComputerRow :=
  { id := freshId (db.computers.map (·.id)), ip := ip, hostname := hostname,
    domain := some dom, os := os, dc := dc, smbv1 := smbv1, signing := signing,
    spooler := spooler, zerologon := zerologon, petitpotam := petitpotam }

/-- The row `add_group` inserts when no (domain, name) match exists (`dom` is
the already-normalized domain). -/
def newGroupRow (db : DB) (dom : String) (name : Option String)
    (mc : Option Nat) (now : String) : GroupRow :=
  { id := freshId (db.groups.map (·.id)), domain := some dom, name := name,
    member_count_ad := mc,
    last_query_time := if mc.isSome then some now else none }

/-- The single Group row left by the C8 scenario (counts 5 then 7, stamped at
`t2`). -/
def c8row : GroupRow :=
  { id := 1, domain := some "TEST", name := some "Domain Admins",
    member_count_ad := some 7, last_query_time := some "t2" }

/-! ## General lemmas about the embedding -/

theorem updOpt_self {α : Type} (a : Option α) : updOpt a a = a := by
  cases a <;> rfl

theorem updOpt_idem {α : Type} (a b : Option α) : updOpt a (updOpt a b) = updOpt a b := by
  cases a <;> rfl

/-! ## Claim C1 -/

/-- Claim C1 (code bug): the claim says that completing a bare placeholder
leaves exactly one row matching (domain, username, type) and touches nothing
else.  On the state `c1db` — one matching bare placeholder plus one unrelated
populated credential — the pre-state has exactly one matching row, yet after
`add_credential` with a populated secret **two** rows match the key: the
UPDATE the source executes carries no WHERE clause, so the unrelated `alice`
row is rewritten into a copy of the reported credential as well. -/
theorem C1_unscoped_update_clobbers_unrelated_rows :
    (c1db.users.filter
      (fun u => credMatch u (normalizeDomain "CORP") (some "bob") (some ""))).length = 1 ∧
    isPlaceholderUser bobPlaceholder = true ∧
    (((add_credential c1db (some "") "CORP" (some "bob") (some "hunter2")
        none none).1.users.filter
      (fun u => credMatch u (normalizeDomain "CORP") (some "bob") (some ""))).length = 2 ∧
    (add_credential c1db (some "") "CORP" (some "bob") (some "hunter2")
        none none).1.users.map (fun u => u.username) =
      [some "bob", some "bob"]) := by
  decide

/-! ## Claim C2 -/

/-- Claim C2 (code bug): the claim says a matched row that already carries a
populated secret is left byte-for-byte unchanged.  On `c2db` — a bare
placeholder and an already-populated row under the same (domain, username,
type) key — reporting a different secret rewrites the populated row too
(its password `oldpw` becomes `newpw`), because the UPDATE executed for the
placeholder has no WHERE clause and hits every row of the table. -/
theorem C2_populated_row_overwritten :
    blankText bobPopulated.password = false ∧
    credMatch bobPopulated (normalizeDomain "CORP") (some "bob") (some "") = true ∧
    (add_credential c2db (some "") "CORP" (some "bob") (some "newpw")
        none none).1.users.map (fun u => u.password) =
      [some "newpw", some "newpw"] := by
  decide

/-! ## Claim C3 -/

/-- Claim C3, counterexample: from a starting state that already contains two
Host rows with ip `10.0.0.5`, two identical `add_computer` calls leave two
rows with that ip, not exactly one — the update branch merges into every
matched row and inserts nothing, so a pre-existing duplicate persists. -/
theorem C3_counterexample :
    (((add_computer (add_computer c3db "10.0.0.5" none "corp" none none none
          none none none none)
        "10.0.0.5" none "corp" none none none none none none none).computers.filter
      (fun c => c.ip == "10.0.0.5")).length) = 2 := by
  decide

/-! ## Claim C6 -/

/-- Claim C6, counterexample: `group_id = 0` is not a valid Group id, yet the
call is **not** a no-op — the guard is the Python truthiness test
`if group_id:`, which `0` fails, so the validity check is skipped and a new
Credential row is inserted and its id returned. -/
theorem C6_counterexample :
    is_group_valid emptyDB 0 = false ∧
    (add_credential emptyDB (some "plaintext") "D" (some "u") (some "p")
        (some 0) none) =
      ({ emptyDB with users := [c6row] }, some 1) := by
  decide

/-! ## Claim C7 -/

/-- Claim C7, counterexample: the credential selector resolves to one row and
the host selector `10.0.0` to two rows, so the claimed Cartesian-product rule
would add two AdminRelation rows; the source's `zip(users, hosts)` pairs the
lists element-wise and adds exactly one. -/
theorem C7_counterexample :
    (adminMatchUsers c7db (some "plaintext") (normalizeDomain "corp")
      (some "bob") (some "pw") none).length = 1 ∧
    (adminMatchHosts c7db "10.0.0").length = 2 ∧
    (add_admin_user c7db (some "plaintext") "corp" (some "bob") (some "pw")
        "10.0.0" none).admin_relations =
      [{ id := 1, userid := 1, computerid := 1 }] := by
  decide

/-! ## Claim C9 -/

/-- Claim C9, counterexample: with the filter term `DC01` and a host whose
hostname is `DC01srv`, the claimed case-insensitive *substring* rule would
return the host, but the source's hostname pattern `%term` (no trailing `%`)
is a suffix match, so the host is not returned. -/
theorem C9_counterexample :
    containsCh (sLower "DC01srv").data (sLower "DC01").data = true ∧
    get_computers c9db (some "DC01") none = [] := by
  decide

/-! ## Claim C10 -/

/-- Claim C10: for every state, permissions string and share id argument,
`get_shares_by_access` returns every row of the Share table unchanged, and its
result is independent of both arguments — the read/write/share-id filters the
source constructs are discarded, never applied to the executed query. -/
theorem C10_get_shares_by_access_ignores_filters :
    ∀ (db : DB) (p p' : String) (sid sid' : Option Nat),
      get_shares_by_access db p sid = db.shares ∧
      get_shares_by_access db p sid = get_shares_by_access db p' sid' := by
  intro db p p' sid sid'
  exact ⟨rfl, rfl⟩

/-! ## Claim C4 -/

/-- Claim C4: when a Host row with the reported ip already exists,
`add_computer` merges rather than replaces — the row count is unchanged, every
row with a different ip survives unchanged, and every matched row keeps its id
while each column takes the supplied value when the argument is non-null and
keeps its previous value when the argument is null. -/
theorem C4_report_host_merges (db : DB) (ip : String) (hostname : Option String)
    (domain : String) (os : Option String)
    (smbv1 signing spooler zerologon petitpotam dc : Option Bool)
    (hexists : db.computers.filter (fun c => c.ip == ip) ≠ []) :
    (add_computer db ip hostname domain os smbv1 signing spooler zerologon
        petitpotam dc).computers.length = db.computers.length ∧
    (∀ c ∈ db.computers, c.ip ≠ ip →
      c ∈ (add_computer db ip hostname domain os smbv1 signing spooler
        zerologon petitpotam dc).computers) ∧
    (∀ c ∈ db.computers, c.ip = ip →
      ∃ c' ∈ (add_computer db ip hostname domain os smbv1 signing spooler
          zerologon petitpotam dc).computers,
        c'.id = c.id ∧ c'.ip = ip ∧
        c'.hostname = updOpt hostname c.hostname ∧
        c'.domain = some (normalizeDomain domain) ∧
        c'.os = updOpt os c.os ∧
        c'.smbv1 = updOpt smbv1 c.smbv1 ∧
        c'.signing = updOpt signing c.signing ∧
        c'.spooler = updOpt spooler c.spooler ∧
        c'.zerologon = updOpt zerologon c.zerologon ∧
        c'.petitpotam = updOpt petitpotam c.petitpotam ∧
        c'.dc = updOpt dc c.dc) := by
  have hne : (db.computers.filter (fun c => c.ip == ip)).isEmpty = false := by
    cases h : (db.computers.filter (fun c => c.ip == ip)).isEmpty
    · rfl
    · exact absurd (List.isEmpty_iff.mp h) hexists
  unfold add_computer
  simp only [hne, Bool.false_eq_true, if_false]
  refine ⟨List.length_map _ _, ?_, ?_⟩
  · intro c hc hcip
    have hbeq : (c.ip == ip) = false := beq_eq_false_iff_ne.mpr hcip
    have := List.mem_map_of_mem
      (fun c => if c.ip == ip then
        mergeComputerRow c ip hostname (normalizeDomain domain) os smbv1
          signing spooler zerologon petitpotam dc
      else c) hc
    simpa [hbeq] using this
  · intro c hc hcip
    refine ⟨mergeComputerRow c ip hostname (normalizeDomain domain) os smbv1
      signing spooler zerologon petitpotam dc, ?_, ?_⟩
    · have := List.mem_map_of_mem
        (fun c => if c.ip == ip then
          mergeComputerRow c ip hostname (normalizeDomain domain) os smbv1
            signing spooler zerologon petitpotam dc
        else c) hc
      simpa [hcip] using this
    · exact ⟨rfl, rfl, rfl, rfl, rfl, rfl, rfl, rfl, rfl, rfl, rfl⟩

/-- Witness for C4 at a concrete state: after a prior full report of
`10.0.0.5` with hostname `DC01`, a second report with `hostname = none`
leaves a row with the same id whose hostname is still `DC01`. -/
theorem C4_witness :
    ∃ c' ∈ (add_computer c4db "10.0.0.5" none "corp.local" none none none none
        none none none).computers,
      c'.id = 1 ∧ c'.ip = "10.0.0.5" ∧ c'.hostname = some "DC01" ∧
      c'.domain = some "CORP" := by
  have h := (C4_report_host_merges c4db "10.0.0.5" none "corp.local" none none
    none none none none none (by decide)).2.2 c4row (by decide) rfl
  obtain ⟨c', hmem, hid, hip, hhn, hdom, -⟩ := h
  exact ⟨c', hmem, by simpa [c4row, plainComputer] using hid, hip,
    by simpa [c4row, plainComputer, updOpt] using hhn, by simpa using hdom⟩

/-! ## Characterization lemmas for `add_computer` -/

theorem add_computer_insert (db : DB) (ip : String) (hostname : Option String)
    (domain : String) (os : Option String)
    (smbv1 signing spooler zerologon petitpotam dc : Option Bool)
    (h : db.computers.filter (fun c => c.ip == ip) = []) :
    add_computer db ip hostname domain os smbv1 signing spooler zerologon
        petitpotam dc =
      { db with computers := db.computers ++
          [newComputerRow db ip hostname (normalizeDomain domain) os smbv1
            signing spooler zerologon petitpotam dc] } := by
  unfold add_computer newComputerRow
  simp [h]

theorem add_computer_update (db : DB) (ip : String) (hostname : Option String)
    (domain : String) (os : Option String)
    (smbv1 signing spooler zerologon petitpotam dc : Option Bool)
    (h : db.computers.filter (fun c => c.ip == ip) ≠ []) :
    add_computer db ip hostname domain os smbv1 signing spooler zerologon
        petitpotam dc =
      { db with computers := db.computers.map (fun c =>
          if c.ip == ip then
            mergeComputerRow c ip hostname (normalizeDomain domain) os smbv1
              signing spooler zerologon petitpotam dc
          else c) } := by
  have hne : (db.computers.filter (fun c => c.ip == ip)).isEmpty = false := by
    cases hh : (db.computers.filter (fun c => c.ip == ip)).isEmpty
    · rfl
    · exact absurd (List.isEmpty_iff.mp hh) h
  unfold add_computer
  simp [hne]

theorem mergeComputerRow_idem (c : ComputerRow) (ip : String)
    (hostname : Option String) (dom : String) (os : Option String)
    (smbv1 signing spooler zerologon petitpotam dc : Option Bool) :
    mergeComputerRow (mergeComputerRow c ip hostname dom os smbv1 signing
        spooler zerologon petitpotam dc) ip hostname dom os smbv1 signing
      spooler zerologon petitpotam dc =
      mergeComputerRow c ip hostname dom os smbv1 signing spooler zerologon
        petitpotam dc := by
  simp [mergeComputerRow, updOpt_idem]

theorem mergeComputerRow_new (db : DB) (ip : String) (hostname : Option String)
    (dom : String) (os : Option String)
    (smbv1 signing spooler zerologon petitpotam dc : Option Bool) :
    mergeComputerRow (newComputerRow db ip hostname dom os smbv1 signing
        spooler zerologon petitpotam dc) ip hostname dom os smbv1 signing
      spooler zerologon petitpotam dc =
      newComputerRow db ip hostname dom os smbv1 signing spooler zerologon
        petitpotam dc := by
  simp [mergeComputerRow, newComputerRow, updOpt_self]

/-! ## Claim C3 (amended) -/

/-- Claim C3 as amended: the second identical `add_computer` call inserts
nothing new — it changes nothing at all (`add_computer` is idempotent on every
starting state) — and when the starting state has **no** row with the reported
ip, the two calls leave exactly one row with that ip.  (The original claim's
"exactly one row for every starting state" fails when the starting state
already holds duplicate rows with that ip; see the counterexample.) -/
theorem C3_report_host_amended (db : DB) (ip : String) (hostname : Option String)
    (domain : String) (os : Option String)
    (smbv1 signing spooler zerologon petitpotam dc : Option Bool) :
    add_computer (add_computer db ip hostname domain os smbv1 signing spooler
        zerologon petitpotam dc) ip hostname domain os smbv1 signing spooler
      zerologon petitpotam dc =
      add_computer db ip hostname domain os smbv1 signing spooler zerologon
        petitpotam dc ∧
    (db.computers.filter (fun c => c.ip == ip) = [] →
      ((add_computer db ip hostname domain os smbv1 signing spooler zerologon
          petitpotam dc).computers.filter (fun c => c.ip == ip)).length = 1) := by
  set dom := normalizeDomain domain with hdom
  set merge1 := fun c => if c.ip == ip then
    mergeComputerRow c ip hostname dom os smbv1 signing spooler zerologon
      petitpotam dc
  else c with hmerge1
  by_cases h : db.computers.filter (fun c => c.ip == ip) = []
  · set nr := newComputerRow db ip hostname dom os smbv1 signing spooler
      zerologon petitpotam dc with hnr
    have h1 := add_computer_insert db ip hostname domain os smbv1 signing
      spooler zerologon petitpotam dc h
    rw [h1]
    have hnrip : (nr.ip == ip) = true := by simp [hnr, newComputerRow]
    have hfil : (db.computers ++ [nr]).filter (fun c => c.ip == ip) = [nr] := by
      rw [List.filter_append, h, List.nil_append]
      simp [List.filter, hnrip]
    have hfil' : ({ db with computers := db.computers ++ [nr] } : DB).computers.filter
        (fun c => c.ip == ip) = [nr] := hfil
    constructor
    · rw [add_computer_update _ ip hostname domain os smbv1 signing spooler
        zerologon petitpotam dc (by rw [hfil']; simp)]
      have hmap : (db.computers ++ [nr]).map merge1 = db.computers ++ [nr] := by
        rw [List.map_append]
        have hold : db.computers.map merge1 = db.computers := by
          have hc : ∀ c ∈ db.computers, merge1 c = c := by
            intro c hc
            have hf : ¬((c.ip == ip) = true) := by
              simpa using List.filter_eq_nil_iff.mp h c hc
            simp only [hmerge1]
            rw [if_neg hf]
          rw [List.map_congr_left hc]
          simp
        have hnew : merge1 nr = nr := by
          rw [hmerge1]
          simp only [hnrip, if_true]
          exact mergeComputerRow_new db ip hostname dom os smbv1 signing
            spooler zerologon petitpotam dc
        rw [hold, List.map_cons, List.map_nil, hnew]
      show ({ db with computers := (db.computers ++ [nr]).map merge1 } : DB) = _
      rw [hmap]
    · intro _
      rw [show ({ db with computers := db.computers ++ [nr] } : DB).computers
        = db.computers ++ [nr] from rfl, hfil]
      rfl
  · have h1 := add_computer_update db ip hostname domain os smbv1 signing
      spooler zerologon petitpotam dc h
    rw [h1]
    obtain ⟨x, xs, hx⟩ : ∃ x xs, db.computers.filter (fun c => c.ip == ip) = x :: xs := by
      cases hh : db.computers.filter (fun c => c.ip == ip) with
      | nil => exact absurd hh h
      | cons x xs => exact ⟨x, xs, rfl⟩
    have hxmem : x ∈ db.computers ∧ (x.ip == ip) = true := by
      have : x ∈ db.computers.filter (fun c => c.ip == ip) := by
        rw [hx]; exact List.mem_cons_self x xs
      exact List.mem_filter.mp this
    have hmx : merge1 x ∈ db.computers.map merge1 := List.mem_map_of_mem _ hxmem.1
    have hmxip : ((merge1 x).ip == ip) = true := by
      rw [hmerge1]; simp only [hxmem.2, if_true]; simp [mergeComputerRow]
    have hfil2 : ({ db with computers := db.computers.map merge1 } : DB).computers.filter
        (fun c => c.ip == ip) ≠ [] := by
      have : merge1 x ∈ (db.computers.map merge1).filter (fun c => c.ip == ip) :=
        List.mem_filter_of_mem hmx hmxip
      exact List.ne_nil_of_mem this
    constructor
    · rw [add_computer_update _ ip hostname domain os smbv1 signing spooler
        zerologon petitpotam dc hfil2]
      have hmap : (db.computers.map merge1).map merge1 = db.computers.map merge1 := by
        rw [List.map_map]
        apply List.map_congr_left
        intro c _
        show merge1 (merge1 c) = merge1 c
        by_cases hp : (c.ip == ip) = true
        · rw [hmerge1]
          simp only [hp, if_true]
          have : ((mergeComputerRow c ip hostname dom os smbv1 signing spooler
              zerologon petitpotam dc).ip == ip) = true := by
            simp [mergeComputerRow]
          simp only [this, if_true]
          exact mergeComputerRow_idem c ip hostname dom os smbv1 signing
            spooler zerologon petitpotam dc
        · have hcc : merge1 c = c := by
            simp only [hmerge1]
            rw [if_neg hp]
          rw [hcc, hcc]
      show ({ db with computers := (db.computers.map merge1).map merge1 } : DB) = _
      rw [hmap]
    · intro hfil
      exact absurd hfil h

/-- Witness for C3's amended claim: from the empty database, two identical
reports of `10.0.0.5` leave exactly one row with that ip. -/
theorem C3_witness :
    ((add_computer emptyDB "10.0.0.5" (some "DC01") "corp.local" none none
        none none none none (some true)).computers.filter
      (fun c => c.ip == "10.0.0.5")).length = 1 :=
  (C3_report_host_amended emptyDB "10.0.0.5" (some "DC01") "corp.local" none
    none none none none none (some true)).2 (by decide)

/-! ## Claim C6 (amended) -/

/-- Claim C6 as amended: the rejection guard fires only for a **truthy**
(non-None and nonzero) dangling reference — when `group_id` is truthy and not
a valid Group id, or when `pillaged_from` is truthy and not a valid Host id
(and the `group_id` guard did not already fire), the call returns no id and
leaves the state untouched.  (As stated the original claim fails for the
falsy invalid id `0`, which slips past the Python truthiness test `if
group_id:`; see the counterexample.) -/
theorem C6_report_credential_rejects_dangling (db : DB)
    (credtype : Option String) (domain : String)
    (username password : Option String) (group_id pillaged_from : Option Nat)
    (h : (truthyId group_id = true ∧ is_group_valid db (group_id.getD 0) = false) ∨
         (truthyId pillaged_from = true ∧
          is_computer_valid db (pillaged_from.getD 0) = false ∧
          (truthyId group_id = true → is_group_valid db (group_id.getD 0) = true))) :
    add_credential db credtype domain username password group_id pillaged_from =
      (db, none) := by
  unfold add_credential
  rcases h with ⟨h1, h2⟩ | ⟨h1, h2, h3⟩
  · simp [h1, h2]
  · have hcond : (truthyId group_id && !is_group_valid db (group_id.getD 0)) = false := by
      by_cases hg : truthyId group_id = true
      · simp [hg, h3 hg]
      · rw [Bool.not_eq_true] at hg
        simp [hg]
    simp [hcond, h1, h2]

/-- Witness for C6's amended claim: a truthy dangling `group_id = 5` on the
empty database is rejected with no id and no state change. -/
theorem C6_witness :
    add_credential emptyDB (some "plaintext") "D" (some "u") (some "p")
      (some 5) none = (emptyDB, none) :=
  C6_report_credential_rejects_dangling emptyDB (some "plaintext") "D"
    (some "u") (some "p") (some 5) none (Or.inl ⟨by decide, by decide⟩)

/-! ## Claim C9 (amended) -/

/-- Claim C9 as amended: `get_computers` applies its filters in the fixed
priority order (a) id lookup — a term denoting an existing row id is always
treated as an id lookup, returning the first row with that id, never as a
substring — then (b) the `dc` keyword, then (c) for a non-empty term the text
filter, which matches rows whose **ip contains** the term case-insensitively
or whose **hostname ends with** the term case-insensitively (the source's
hostname pattern has no trailing `%`), then (d) no filter, returning every
row.  (The original claim's branch (c) — substring match on hostname — fails;
see the counterexample.) -/
theorem C9_get_hosts_priority (db : DB) (ft : Option String) :
    (is_computer_valid_term db ft = true →
      get_computers db ft none =
        (db.computers.filter (fun c => termMatchesId ft c.id)).take 1) ∧
    (is_computer_valid_term db ft = false →
      (ft = some "dc" →
        get_computers db ft none =
          db.computers.filter (fun c => c.dc == some true)) ∧
      (ft ≠ some "dc" → truthyStr ft = true →
        get_computers db ft none =
          db.computers.filter (fun c => computerTextFilter c (ft.getD ""))) ∧
      (truthyStr ft = false → get_computers db ft none = db.computers)) := by
  unfold get_computers
  constructor
  · intro h
    simp [h]
  · intro h
    refine ⟨?_, ?_, ?_⟩
    · intro hdc
      subst hdc
      simp [h, truthyStr]
    · intro hdc htr
      have hbeq : (ft == some "dc") = false := beq_eq_false_iff_ne.mpr hdc
      simp [h, hbeq, htr]
    · intro htr
      have hbeq : (ft == some "dc") = false := by
        apply beq_eq_false_iff_ne.mpr
        intro hfteq
        rw [hfteq] at htr
        exact absurd htr (by decide)
      simp [h, hbeq, htr]

/-- Witness for C9's amended claim: the numeric term `1` matches the existing
row id 1 of `c9db` and is resolved as an id lookup. -/
theorem C9_witness :
    get_computers c9db (some "1") none =
      (c9db.computers.filter (fun c => termMatchesId (some "1") c.id)).take 1 :=
  (C9_get_hosts_priority c9db (some "1")).1 (by decide)

/-! ## Helper lemmas for `add_credential`'s update loop -/

theorem credUpdateStep_users (credtype : Option String) (dom : String)
    (username password : Option String) (group_id : Option Nat)
    (acc : DB × Option Nat) (u : UserRow) :
    (credUpdateStep credtype dom username password group_id acc u).1.users =
      if isPlaceholderUser u then
        acc.1.users.map (fun v => updateCredRow v credtype dom username password)
      else acc.1.users := by
  unfold credUpdateStep
  by_cases h : isPlaceholderUser u = true
  · simp only [h, if_true]
    split <;> rfl
  · rw [Bool.not_eq_true] at h
    simp [h]

theorem cred_fold_users_inv (credtype : Option String) (dom : String)
    (username password : Option String) (group_id : Option Nat)
    (base : List UserRow) :
    ∀ (l : List UserRow) (acc : DB × Option Nat),
      (∀ u ∈ acc.1.users, u ∈ base ∨ u.domain = some dom) →
      ∀ u ∈ (l.foldl (credUpdateStep credtype dom username password group_id)
          acc).1.users,
        u ∈ base ∨ u.domain = some dom := by
  intro l
  induction l with
  | nil => intro acc hacc; simpa using hacc
  | cons x xs ih =>
    intro acc hacc
    rw [List.foldl_cons]
    apply ih
    intro u hu
    rw [credUpdateStep_users] at hu
    by_cases hx : isPlaceholderUser x = true
    · rw [if_pos hx] at hu
      obtain ⟨v, _, rfl⟩ := List.mem_map.mp hu
      exact Or.inr rfl
    · rw [Bool.not_eq_true] at hx
      rw [if_neg (by simp [hx])] at hu
      exact hacc u hu

/-! ## Helper lemma for `add_group`'s update loop -/

theorem group_fold_inv (dom : String) (name : Option String) (mc : Option Nat)
    (now : String) (base : List GroupRow) :
    ∀ (l : List GroupRow) (acc : List GroupRow × Nat),
      (∀ g ∈ acc.1, g ∈ base ∨ g.domain = some dom) →
      ∀ g ∈ (l.foldl (fun (acc : List GroupRow × Nat) g =>
          (updateGroupsById acc.1 g.id dom name mc now, g.id)) acc).1,
        g ∈ base ∨ g.domain = some dom := by
  intro l
  induction l with
  | nil => intro acc hacc; simpa using hacc
  | cons x xs ih =>
    intro acc hacc
    rw [List.foldl_cons]
    apply ih
    intro g hg
    unfold updateGroupsById at hg
    obtain ⟨v, hv, rfl⟩ := List.mem_map.mp hg
    by_cases hid : (v.id == x.id) = true
    · rw [if_pos hid]
      exact Or.inr rfl
    · rw [Bool.not_eq_true] at hid
      rw [if_neg (by simp [hid])]
      exact hacc v hv

/-! ## Claim C5 -/

/-- Claim C5: every domain string the three reconciliation writers store is
normalized — the part before the first `.`, uppercased: every row present
after `add_computer`, `add_credential` or `add_group` either was already
present before the call or carries the normalized domain; `corp.local` and
`CORP` both normalize to `CORP`; and concretely, a credential reported under
`corp.local` and re-reported under `CORP` resolve to the same stored domain
`CORP` and are matched as duplicates — one row remains. -/
theorem C5_domain_normalization :
    (∀ (db : DB) (ip : String) (hostname : Option String) (domain : String)
        (os : Option String)
        (smbv1 signing spooler zerologon petitpotam dc : Option Bool),
      ∀ c ∈ (add_computer db ip hostname domain os smbv1 signing spooler
          zerologon petitpotam dc).computers,
        c ∈ db.computers ∨ c.domain = some (normalizeDomain domain)) ∧
    (∀ (db : DB) (credtype : Option String) (domain : String)
        (username password : Option String) (group_id pillaged_from : Option Nat),
      ∀ u ∈ (add_credential db credtype domain username password group_id
          pillaged_from).1.users,
        u ∈ db.users ∨ u.domain = some (normalizeDomain domain)) ∧
    (∀ (db : DB) (domain : String) (name : Option String) (mc : Option Nat)
        (now : String),
      ∀ g ∈ (add_group db domain name mc now).1.groups,
        g ∈ db.groups ∨ g.domain = some (normalizeDomain domain)) ∧
    normalizeDomain "corp.local" = "CORP" ∧
    normalizeDomain "CORP" = "CORP" ∧
    ((add_credential (add_credential emptyDB (some "plaintext") "corp.local"
        (some "bob") (some "pw") none none).1
      (some "plaintext") "CORP" (some "bob") (some "pw2") none none).1.users.map
        (fun u => u.domain) = [some "CORP"]) := by
  refine ⟨?_, ?_, ?_, by decide, by decide, by decide⟩
  · intro db ip hostname domain os smbv1 signing spooler zerologon petitpotam dc
    by_cases h : db.computers.filter (fun c => c.ip == ip) = []
    · rw [add_computer_insert db ip hostname domain os smbv1 signing spooler
        zerologon petitpotam dc h]
      intro c hc
      rcases List.mem_append.mp hc with hin | hin
      · exact Or.inl hin
      · right
        rw [List.mem_singleton.mp hin]
        rfl
    · rw [add_computer_update db ip hostname domain os smbv1 signing spooler
        zerologon petitpotam dc h]
      intro c hc
      obtain ⟨v, hv, rfl⟩ := List.mem_map.mp hc
      by_cases hip : (v.ip == ip) = true
      · rw [if_pos hip]
        exact Or.inr rfl
      · rw [Bool.not_eq_true] at hip
        rw [if_neg (by simp [hip])]
        exact Or.inl hv
  · intro db credtype domain username password group_id pillaged_from
    unfold add_credential
    by_cases h1 : (truthyId group_id && !is_group_valid db (group_id.getD 0)) = true
    · simp only [h1, if_true]
      intro u hu
      exact Or.inl hu
    · rw [Bool.not_eq_true] at h1
      simp only [h1, Bool.false_eq_true, if_false]
      by_cases h2 : (truthyId pillaged_from &&
          !is_computer_valid db (pillaged_from.getD 0)) = true
      · simp only [h2, if_true]
        intro u hu
        exact Or.inl hu
      · rw [Bool.not_eq_true] at h2
        simp only [h2, Bool.false_eq_true, if_false]
        by_cases h3 : (db.users.filter (fun u =>
            credMatch u (normalizeDomain domain) username credtype)).isEmpty = true
        · simp only [h3, if_true]
          by_cases h4 : truthyId group_id = true
          · simp only [h4, if_true]
            intro u hu
            rcases List.mem_append.mp hu with hin | hin
            · exact Or.inl hin
            · right
              rw [List.mem_singleton.mp hin]
          · rw [Bool.not_eq_true] at h4
            simp only [h4, Bool.false_eq_true, if_false]
            intro u hu
            rcases List.mem_append.mp hu with hin | hin
            · exact Or.inl hin
            · right
              rw [List.mem_singleton.mp hin]
        · simp only [h3, Bool.false_eq_true, if_false]
          intro u hu
          exact cred_fold_users_inv credtype (normalizeDomain domain) username
            password group_id db.users _ (db, none)
            (fun u hu => Or.inl hu) u hu
  · intro db domain name mc now g hg
    unfold add_group at hg
    cases hres : db.groups.filter (fun g =>
        groupMatch g (normalizeDomain domain) name) with
    | nil =>
      simp only [hres] at hg
      rcases List.mem_append.mp hg with hin | hin
      · exact Or.inl hin
      · right
        rw [List.mem_singleton.mp hin]
    | cons m ms =>
      simp only [hres] at hg
      exact group_fold_inv (normalizeDomain domain) name mc now db.groups
        (m :: ms) (db.groups, m.id) (fun g hg => Or.inl hg) g hg

/-- Witness for C5: the row inserted by reporting ip `1.2.3.4` under domain
`corp.local` into the empty database carries the normalized domain. -/
theorem C5_witness :
    c5row ∈ emptyDB.computers ∨ c5row.domain = some (normalizeDomain "corp.local") :=
  C5_domain_normalization.1 emptyDB "1.2.3.4" none "corp.local" none none none
    none none none none c5row (by decide)

/-! ## Helper lemmas for `add_admin_user`'s link loop -/

theorem insertAdminLinks_nil (rels : List AdminRelationRow) :
    insertAdminLinks rels [] = rels := rfl

theorem insertAdminLinks_cons (rels : List AdminRelationRow)
    (p : UserRow × ComputerRow) (ps : List (UserRow × ComputerRow)) :
    insertAdminLinks rels (p :: ps) =
      insertAdminLinks
        (if linkExists rels p.1.id p.2.id then rels
         else rels ++ [{ id := freshId (rels.map (·.id)), userid := p.1.id,
                         computerid := p.2.id }]) ps := rfl

theorem insertAdminLinks_mem_mono :
    ∀ (pairs : List (UserRow × ComputerRow)) (rels : List AdminRelationRow)
      (r : AdminRelationRow), r ∈ rels → r ∈ insertAdminLinks rels pairs := by
  intro pairs
  induction pairs with
  | nil => intro rels r h; simpa [insertAdminLinks_nil] using h
  | cons p ps ih =>
    intro rels r h
    rw [insertAdminLinks_cons]
    apply ih
    by_cases hl : linkExists rels p.1.id p.2.id = true
    · rw [if_pos hl]; exact h
    · rw [if_neg hl]; exact List.mem_append_left _ h

theorem linkExists_of_mem (rels : List AdminRelationRow) (r : AdminRelationRow)
    (h : r ∈ rels) : linkExists rels r.userid r.computerid = true := by
  unfold linkExists
  rw [List.any_eq_true]
  exact ⟨r, h, by simp⟩

theorem linkExists_spec (rels : List AdminRelationRow) (u c : Nat) :
    linkExists rels u c = true ↔ ∃ r ∈ rels, r.userid = u ∧ r.computerid = c := by
  unfold linkExists
  rw [List.any_eq_true]
  constructor
  · rintro ⟨r, hr, hb⟩
    simp only [Bool.and_eq_true, beq_iff_eq] at hb
    exact ⟨r, hr, hb⟩
  · rintro ⟨r, hr, h1, h2⟩
    exact ⟨r, hr, by simp [h1, h2]⟩

theorem linkExists_insert_mono (pairs : List (UserRow × ComputerRow))
    (rels : List AdminRelationRow) (u c : Nat)
    (h : linkExists rels u c = true) :
    linkExists (insertAdminLinks rels pairs) u c = true := by
  obtain ⟨r, hr, h1, h2⟩ := (linkExists_spec rels u c).mp h
  exact (linkExists_spec _ u c).mpr
    ⟨r, insertAdminLinks_mem_mono pairs rels r hr, h1, h2⟩

theorem insertAdminLinks_linked :
    ∀ (pairs : List (UserRow × ComputerRow)) (rels : List AdminRelationRow),
      ∀ p ∈ pairs, linkExists (insertAdminLinks rels pairs) p.1.id p.2.id = true := by
  intro pairs
  induction pairs with
  | nil => intro rels p hp; cases hp
  | cons q qs ih =>
    intro rels p hp
    rw [insertAdminLinks_cons]
    rcases List.mem_cons.mp hp with rfl | hin
    · apply linkExists_insert_mono
      by_cases hl : linkExists rels p.1.id p.2.id = true
      · rw [if_pos hl]; exact hl
      · rw [if_neg hl]
        exact (linkExists_spec _ _ _).mpr
          ⟨{ id := freshId (rels.map (·.id)), userid := p.1.id,
             computerid := p.2.id },
           List.mem_append_right _ (List.mem_singleton_self _), rfl, rfl⟩
    · exact ih _ p hin

theorem insertAdminLinks_length :
    ∀ (pairs : List (UserRow × ComputerRow)) (rels : List AdminRelationRow),
      (insertAdminLinks rels pairs).length ≤ rels.length + pairs.length := by
  intro pairs
  induction pairs with
  | nil => intro rels; simp [insertAdminLinks_nil]
  | cons p ps ih =>
    intro rels
    rw [insertAdminLinks_cons]
    have hstep : (if linkExists rels p.1.id p.2.id then rels
        else rels ++ [{ id := freshId (rels.map (·.id)), userid := p.1.id,
                        computerid := p.2.id }]).length ≤ rels.length + 1 := by
      by_cases hl : linkExists rels p.1.id p.2.id = true
      · rw [if_pos hl]; omega
      · rw [if_neg hl]; simp
    calc (insertAdminLinks _ ps).length ≤ _ + ps.length := ih _
    _ ≤ rels.length + 1 + ps.length := by omega
    _ = rels.length + (p :: ps).length := by simp; omega

theorem insertAdminLinks_noop :
    ∀ (pairs : List (UserRow × ComputerRow)) (rels : List AdminRelationRow),
      (∀ p ∈ pairs, linkExists rels p.1.id p.2.id = true) →
      insertAdminLinks rels pairs = rels := by
  intro pairs
  induction pairs with
  | nil => intro rels _; rfl
  | cons q qs ih =>
    intro rels h
    rw [insertAdminLinks_cons, if_pos (h q (List.mem_cons_self q qs))]
    exact ih rels (fun p hp => h p (List.mem_cons_of_mem q hp))

/-! ## Claim C7 (amended) -/

/-- Claim C7 as amended: `add_admin_user` links the **element-wise pairing**
`zip(users, hosts)` of the resolved credential and host lists — not their
Cartesian product — inserting a row for each zipped pair not already present:
previous AdminRelation rows survive, every zipped pair is linked afterwards,
at most `min |users| |hosts|` rows are added, and repeating the call with the
same arguments changes nothing, so the same resolved (credential, host) pair
is never linked twice.  (The original claim's Cartesian-product rule fails
when the selectors fan out; see the counterexample.) -/
theorem C7_link_admin_zip (db : DB) (credtype : Option String)
    (domain : String) (username password : Option String) (host : String)
    (user_id : Option Nat) :
    (∀ r ∈ db.admin_relations,
      r ∈ (add_admin_user db credtype domain username password host
        user_id).admin_relations) ∧
    (∀ p ∈ (adminMatchUsers db credtype (normalizeDomain domain) username
          password user_id).zip (adminMatchHosts db host),
      linkExists (add_admin_user db credtype domain username password host
          user_id).admin_relations p.1.id p.2.id = true) ∧
    (add_admin_user db credtype domain username password host
        user_id).admin_relations.length ≤
      db.admin_relations.length +
        min (adminMatchUsers db credtype (normalizeDomain domain) username
            password user_id).length
          (adminMatchHosts db host).length ∧
    add_admin_user (add_admin_user db credtype domain username password host
        user_id) credtype domain username password host user_id =
      add_admin_user db credtype domain username password host user_id := by
  have hchar : ∀ d : DB,
      add_admin_user d credtype domain username password host user_id =
        { d with admin_relations := (insertAdminLinks d.admin_relations
            ((adminMatchUsers d credtype (normalizeDomain domain) username
              password user_id).zip (adminMatchHosts d host))) } :=
    fun d => rfl
  refine ⟨?_, ?_, ?_, ?_⟩
  · rw [hchar]
    exact fun r hr => insertAdminLinks_mem_mono _ _ r hr
  · rw [hchar]
    exact fun p hp => insertAdminLinks_linked _ _ p hp
  · rw [hchar]
    have := insertAdminLinks_length
      ((adminMatchUsers db credtype (normalizeDomain domain) username password
        user_id).zip (adminMatchHosts db host)) db.admin_relations
    simpa [List.length_zip] using this
  · have hpairs : (adminMatchUsers (add_admin_user db credtype domain username
        password host user_id) credtype (normalizeDomain domain) username
        password user_id) =
        adminMatchUsers db credtype (normalizeDomain domain) username password
          user_id := rfl
    have hhosts : adminMatchHosts (add_admin_user db credtype domain username
        password host user_id) host = adminMatchHosts db host := rfl
    have hrels : (add_admin_user db credtype domain username password host
        user_id).admin_relations =
        insertAdminLinks db.admin_relations
          ((adminMatchUsers db credtype (normalizeDomain domain) username
            password user_id).zip (adminMatchHosts db host)) := rfl
    rw [hchar (add_admin_user db credtype domain username password host user_id),
      hpairs, hhosts, hrels]
    rw [insertAdminLinks_noop _ _ (fun p hp => by
      have := insertAdminLinks_linked
        ((adminMatchUsers db credtype (normalizeDomain domain) username
          password user_id).zip (adminMatchHosts db host)) db.admin_relations p hp
      exact this)]
    rw [hchar db]

/-- Witness for C7's amended claim: on `c7db` the zipped pair (credential 1,
host 1) is linked after the call. -/
theorem C7_witness :
    linkExists (add_admin_user c7db (some "plaintext") "corp" (some "bob")
        (some "pw") "10.0.0" none).admin_relations 1 1 = true := by
  have h := (C7_link_admin_zip c7db (some "plaintext") "corp" (some "bob")
    (some "pw") "10.0.0" none).2.1
  exact h ((⟨1, some "CORP", some "bob", some "pw", some "plaintext",
      none⟩ : UserRow), plainComputer 1 "10.0.0.5") (by decide)

/-! ## Helper lemmas for `add_group`'s update loop -/

theorem group_fold_fst (dom : String) (name : Option String) (mc : Option Nat)
    (now : String) :
    ∀ (l : List GroupRow) (gs0 : List GroupRow) (c0 : Nat),
      (l.foldl (fun (acc : List GroupRow × Nat) g =>
        (updateGroupsById acc.1 g.id dom name mc now, g.id)) (gs0, c0)).1 =
      l.foldl (fun gs g => updateGroupsById gs g.id dom name mc now) gs0 := by
  intro l
  induction l with
  | nil => intro gs0 c0; rfl
  | cons x xs ih =>
    intro gs0 c0
    rw [List.foldl_cons, List.foldl_cons]
    exact ih _ _

theorem group_fold_snd (dom : String) (name : Option String) (mc : Option Nat)
    (now : String) :
    ∀ (xs : List GroupRow) (x : GroupRow) (gs0 : List GroupRow) (c0 : Nat),
      ((x :: xs).foldl (fun (acc : List GroupRow × Nat) g =>
        (updateGroupsById acc.1 g.id dom name mc now, g.id)) (gs0, c0)).2 =
      ((x :: xs).getLast (List.cons_ne_nil x xs)).id := by
  intro xs
  induction xs with
  | nil => intro x gs0 c0; rfl
  | cons y ys ih =>
    intro x gs0 c0
    rw [List.foldl_cons]
    rw [show ((x :: y :: ys).getLast (List.cons_ne_nil x (y :: ys))).id =
      ((y :: ys).getLast (List.cons_ne_nil y ys)).id from by
        rw [List.getLast_cons (List.cons_ne_nil y ys)]]
    exact ih y _ _

theorem group_fold_as_map (dom : String) (name : Option String)
    (mc : Option Nat) (now : String) :
    ∀ (l : List GroupRow) (gs0 : List GroupRow),
      l.foldl (fun gs g => updateGroupsById gs g.id dom name mc now) gs0 =
      gs0.map (fun x => l.foldl (fun x g =>
        if x.id == g.id then updateGroupRow x dom name mc now else x) x) := by
  intro l
  induction l with
  | nil => intro gs0; simp
  | cons p ps ih =>
    intro gs0
    rw [List.foldl_cons, ih, updateGroupsById, List.map_map]
    apply List.map_congr_left
    intro x _
    rfl

theorem group_chain_id (dom : String) (name : Option String) (mc : Option Nat)
    (now : String) :
    ∀ (l : List GroupRow) (x : GroupRow),
      (l.foldl (fun x g =>
        if x.id == g.id then updateGroupRow x dom name mc now else x) x).id = x.id := by
  intro l
  induction l with
  | nil => intro x; rfl
  | cons g gs ih =>
    intro x
    rw [List.foldl_cons]
    by_cases h : (x.id == g.id) = true
    · rw [if_pos h, ih]
      rfl
    · rw [if_neg h, ih]

theorem group_chain_miss (dom : String) (name : Option String)
    (mc : Option Nat) (now : String) :
    ∀ (l : List GroupRow) (x : GroupRow), (∀ g ∈ l, ¬x.id = g.id) →
      l.foldl (fun x g =>
        if x.id == g.id then updateGroupRow x dom name mc now else x) x = x := by
  intro l
  induction l with
  | nil => intro x _; rfl
  | cons g gs ih =>
    intro x h
    rw [List.foldl_cons, if_neg (by simpa using h g (List.mem_cons_self g gs))]
    exact ih x (fun w hw => h w (List.mem_cons_of_mem g hw))

theorem group_chain_hit (dom : String) (name : Option String)
    (mc : Option Nat) (now : String) :
    ∀ (l : List GroupRow) (x : GroupRow), (∃ g ∈ l, x.id = g.id) →
      ((l.foldl (fun x g =>
          if x.id == g.id then updateGroupRow x dom name mc now else x) x).member_count_ad
          = updOpt mc x.member_count_ad ∧
        (l.foldl (fun x g =>
          if x.id == g.id then updateGroupRow x dom name mc now else x) x).last_query_time
          = (if mc.isSome then some now else x.last_query_time) ∧
        (l.foldl (fun x g =>
          if x.id == g.id then updateGroupRow x dom name mc now else x) x).domain
          = some dom ∧
        (l.foldl (fun x g =>
          if x.id == g.id then updateGroupRow x dom name mc now else x) x).name
          = updOpt name x.name) := by
  intro l
  induction l with
  | nil =>
    intro x hx
    obtain ⟨g, hg, -⟩ := hx
    cases hg
  | cons g gs ih =>
    intro x hx
    by_cases h : (x.id == g.id) = true
    · rw [List.foldl_cons, if_pos h]
      by_cases h2 : ∃ w ∈ gs, (updateGroupRow x dom name mc now).id = w.id
      · obtain ⟨hmc, htime, hdom, hname⟩ := ih (updateGroupRow x dom name mc now) h2
        refine ⟨?_, ?_, hdom, ?_⟩
        · rw [hmc]
          show updOpt mc (updOpt mc x.member_count_ad) = _
          exact updOpt_idem mc x.member_count_ad
        · rw [htime]
          cases mc with
          | none => rfl
          | some v => rfl
        · rw [hname]
          show updOpt name (updOpt name x.name) = _
          exact updOpt_idem name x.name
      · push_neg at h2
        rw [group_chain_miss dom name mc now gs _ h2]
        exact ⟨rfl, rfl, rfl, rfl⟩
    · rw [List.foldl_cons, if_neg h]
      apply ih x
      obtain ⟨w, hw, hid⟩ := hx
      rcases List.mem_cons.mp hw with rfl | hin
      · exact absurd (by simp [hid]) h
      · exact ⟨w, hin, hid⟩

/-! ## Claim C8 -/

/-- Claim C8: `add_group` looks the Group up by (domain, name)
case-insensitively; when no match exists it inserts one new row (count and
timestamp only when the count is supplied) and returns its id; when matches
exist it inserts nothing, updates every matched row — member count overwritten
and `last_query_time` stamped with the current time exactly when
`ad_member_count` is supplied, left untouched otherwise — and returns the id
of the last row touched; and concretely, reporting `Domain Admins` of
`test.local` with counts 5 then 7 leaves exactly one row with count 7 and the
second call's timestamp. -/
theorem C8_report_group (db : DB) (domain : String) (name : Option String)
    (mc : Option Nat) (now : String) :
    (db.groups.filter (fun g => groupMatch g (normalizeDomain domain) name) = [] →
      (add_group db domain name mc now).1.groups = db.groups ++
        [newGroupRow db (normalizeDomain domain) name mc now] ∧
      (add_group db domain name mc now).2 = freshId (db.groups.map (·.id))) ∧
    (∀ h : db.groups.filter (fun g =>
        groupMatch g (normalizeDomain domain) name) ≠ [],
      (add_group db domain name mc now).1.groups.length = db.groups.length ∧
      (add_group db domain name mc now).2 =
        ((db.groups.filter (fun g =>
          groupMatch g (normalizeDomain domain) name)).getLast h).id ∧
      (∀ g ∈ db.groups, groupMatch g (normalizeDomain domain) name = true →
        ∃ g' ∈ (add_group db domain name mc now).1.groups,
          g'.id = g.id ∧
          g'.member_count_ad = updOpt mc g.member_count_ad ∧
          g'.last_query_time =
            (if mc.isSome then some now else g.last_query_time) ∧
          g'.domain = some (normalizeDomain domain) ∧
          g'.name = updOpt name g.name)) ∧
    (add_group (add_group emptyDB "test.local" (some "Domain Admins") (some 5)
        "t1").1 "test.local" (some "Domain Admins") (some 7) "t2").1.groups =
      [c8row] ∧
    (add_group (add_group emptyDB "test.local" (some "Domain Admins") (some 5)
        "t1").1 "test.local" (some "Domain Admins") (some 7) "t2").2 = 1 := by
  refine ⟨?_, ?_, by decide, by decide⟩
  · intro hres
    unfold add_group
    simp only [hres]
    constructor <;> trivial
  · intro hne
    obtain ⟨m, ms, hres⟩ : ∃ m ms, db.groups.filter (fun g =>
        groupMatch g (normalizeDomain domain) name) = m :: ms := by
      cases hh : db.groups.filter (fun g =>
          groupMatch g (normalizeDomain domain) name) with
      | nil => exact absurd hh hne
      | cons m ms => exact ⟨m, ms, rfl⟩
    have hgroups : (add_group db domain name mc now).1.groups =
        db.groups.map (fun x => (m :: ms).foldl (fun x g =>
          if x.id == g.id then
            updateGroupRow x (normalizeDomain domain) name mc now
          else x) x) := by
      unfold add_group
      simp only [hres]
      rw [group_fold_fst, group_fold_as_map]
    have hsnd : (add_group db domain name mc now).2 =
        ((m :: ms).getLast (List.cons_ne_nil m ms)).id := by
      unfold add_group
      simp only [hres]
      exact group_fold_snd (normalizeDomain domain) name mc now ms m _ _
    refine ⟨?_, ?_, ?_⟩
    · rw [hgroups, List.length_map]
    · rw [hsnd]
      simp only [hres]
    · intro g hg hmatch
      have hgfil : g ∈ (m :: ms) := by
        rw [← hres]
        exact List.mem_filter_of_mem hg hmatch
      obtain ⟨hmc, htime, hdom, hname⟩ :=
        group_chain_hit (normalizeDomain domain) name mc now (m :: ms) g
          ⟨g, hgfil, rfl⟩
      refine ⟨(m :: ms).foldl (fun x g =>
          if x.id == g.id then
            updateGroupRow x (normalizeDomain domain) name mc now
          else x) g, ?_, ?_, hmc, htime, hdom, hname⟩
      · rw [hgroups]
        exact List.mem_map_of_mem _ hg
      · exact group_chain_id (normalizeDomain domain) name mc now (m :: ms) g

/-- Witness for C8 at a concrete state: on the empty database the first report
of `Domain Admins` inserts one new row and returns the fresh id. -/
theorem C8_witness :
    (add_group emptyDB "test.local" (some "Domain Admins") (some 5)
        "t1").1.groups =
      emptyDB.groups ++ [newGroupRow emptyDB (normalizeDomain "test.local")
        (some "Domain Admins") (some 5) "t1"] ∧
    (add_group emptyDB "test.local" (some "Domain Admins") (some 5) "t1").2 =
      freshId (emptyDB.groups.map (·.id)) :=
  (C8_report_group emptyDB "test.local" (some "Domain Admins") (some 5)
    "t1").1 (by decide)
